import Mathlib

/-!
Verification of the interview-request form component (`CreateForm.tsx`).

The component keeps an in-memory draft (type, role, level, specialtySkills,
amount) plus a transient staging string for the skill-tag editor, validates
the draft with a zod schema, and on submit serializes it (with the skill
list joined by a comma and a space, and the current user's id) into a JSON
POST body.  We embed each piece as an executable Lean definition.
-/

namespace CreateForm

/-- Model of JavaScript String.prototype.trim on a character list:
drop whitespace at both ends. -/
def trimChars (l : List Char) : List Char :=
  ((l.dropWhile Char.isWhitespace).reverse.dropWhile Char.isWhitespace).reverse

/-- `skillInput.trim()` from the source. -/
def jsTrim (s : String) : String := ⟨trimChars s.data⟩

/-- The draft held by the form: the fields of `formSchema` (`type`, `role`,
`level`, `specialtySkills`, `amount`). -/
structure FormValues where
  type : String
  role : String
  level : String
  specialtySkills : List String
  amount : Nat
deriving DecidableEq

/-- `defaultValues` passed to `useForm`. -/
def defaultValues : FormValues :=
  { type := "", role := "", level := "", specialtySkills := [], amount := 5 }

/-- One zod validation issue: the offending path and the message. -/
structure Issue where
  path : String
  message : String
deriving DecidableEq

/-- `z.string().min(1, { message: "This field is required." })` applied at
a named path: an issue exactly when the string length is below 1. -/
def requiredCheck (path val : String) : List Issue :=
  if val.length < 1 then [⟨path, "This field is required."⟩] else []

/-- `z.array(z.string().min(1)).min(1, { message: "Please add at least one
skill." })`: per-element length checks (default zod message) followed by the
array minimum-length check. -/
def skillsIssues (skills : List String) : List Issue :=
  (skills.enum.filterMap fun p =>
    if p.2.length < 1 then
      some ⟨"specialtySkills." ++ toString p.1,
            "String must contain at least 1 character(s)"⟩
    else none) ++
  (if skills.length < 1 then
    [⟨"specialtySkills", "Please add at least one skill."⟩] else [])

/-- `z.union([z.literal 3, z.literal 5, z.literal 10, z.literal 15,
z.literal 20])` for `amount`. -/
def amountIssues (a : Nat) : List Issue :=
  if a = 3 ∨ a = 5 ∨ a = 10 ∨ a = 15 ∨ a = 20 then []
  else [⟨"amount", "Invalid literal value"⟩]

/-- `formSchema` run on a candidate draft: every issue it reports. -/
def validateIssues (v : FormValues) : List Issue :=
  requiredCheck "type" v.type ++ requiredCheck "role" v.role ++
  requiredCheck "level" v.level ++ skillsIssues v.specialtySkills ++
  amountIssues v.amount

/-- JavaScript values that occur in the request-body object literal. -/
inductive JsonVal where
  | str (s : String)
  | num (n : Nat)
  | arr (xs : List JsonVal)
  | undef

/-- Writing `k: v` inside an object literal: overwrite in place when the key
is already present (a spread put it there), otherwise append. -/
def objInsert (ps : List (String × JsonVal)) (k : String) (v : JsonVal) :
    List (String × JsonVal) :=
  if ps.any (fun p => p.1 == k) then
    ps.map (fun p => if p.1 == k then (k, v) else p)
  else ps ++ [(k, v)]

/-- The plain object `{...values}`: the draft's fields in declaration
order, the skill list still an array. -/
def valuesPairs (v : FormValues) : List (String × JsonVal) :=
  [("type", .str v.type), ("role", .str v.role), ("level", .str v.level),
   ("specialtySkills", .arr (v.specialtySkills.map .str)),
   ("amount", .num v.amount)]

/-- `values.specialtySkills.join(", ")`. -/
def joinSkills (skills : List String) : String :=
  String.intercalate ", " skills

/-- The object literal built in `onSubmit`:
`{...values, specialtySkills: values.specialtySkills.join(", "),
userid: user?.id}` — `user?.id` is `undefined` when no user is present. -/
def buildBody (v : FormValues) (userId : Option String) :
    List (String × JsonVal) :=
  objInsert
    (objInsert (valuesPairs v) "specialtySkills" (.str (joinSkills v.specialtySkills)))
    "userid" (match userId with | some u => .str u | none => .undef)

/-- Hexadecimal digit, as JSON.stringify prints control-character escapes. -/
def hexDigit (n : Nat) : Char :=
  if n < 10 then Char.ofNat (48 + n) else Char.ofNat (87 + n)

/-- JSON.stringify escaping of a single character. -/
def escapeChar (c : Char) : String :=
  if c = '"' then "\\\""
  else if c = '\\' then "\\\\"
  else if c = '\x08' then "\\b"
  else if c = '\x0c' then "\\f"
  else if c = '\n' then "\\n"
  else if c = '\r' then "\\r"
  else if c = '\t' then "\\t"
  else if c.toNat < 32 then
    "\\u00" ++ String.mk [hexDigit (c.toNat / 16), hexDigit (c.toNat % 16)]
  else String.singleton c

/-- JSON.stringify escaping of a string body. -/
def escapeString (s : String) : String := String.join (s.data.map escapeChar)

mutual

/-- JSON.stringify of one value; `none` for `undefined` (the property is
dropped at object level, rendered `null` inside arrays). -/
def stringifyVal : JsonVal → Option String
  | .str s => some ("\"" ++ escapeString s ++ "\"")
  | .num n => some (toString n)
  | .undef => none
  | .arr xs => some ("[" ++ String.intercalate "," (stringifyList xs) ++ "]")

/-- Array elements, `undefined` printed as `null`. -/
def stringifyList : List JsonVal → List String
  | [] => []
  | x :: xs => ((stringifyVal x).getD "null") :: stringifyList xs

end

/-- Key/value pairs that survive serialization: `undefined`-valued
properties are dropped, the rest keep their rendered value. -/
def serializedPairs (ps : List (String × JsonVal)) : List (String × String) :=
  ps.filterMap (fun p => (stringifyVal p.2).map (fun s => (p.1, s)))

/-- JSON.stringify of the whole object. -/
def stringifyObj (ps : List (String × JsonVal)) : String :=
  "\x7b" ++
    String.intercalate ","
      ((serializedPairs ps).map (fun p => "\"" ++ escapeString p.1 ++ "\":" ++ p.2)) ++
  "\x7d"

/-- `form.handleSubmit(onSubmit)`: the resolver runs `formSchema` first and
the body is built (and the request issued) only when no issue is reported. -/
def submitRequest (v : FormValues) (userId : Option String) :
    Option (List (String × JsonVal)) :=
  if (validateIssues v).isEmpty then some (buildBody v userId) else none

/-- What the awaited `fetch` can come back as: a thrown error, or a
response whose `ok` flag reflects the status class. -/
inductive NetOutcome where
  | throws
  | responds (ok : Bool)
deriving DecidableEq

/-- Observable outcome of one run of `onSubmit` past the network call:
the draft afterwards, whether `console.error` ran, whether
`router.refresh()` ran, whether any navigation was requested, and whether
any field-level error was set. -/
structure SubmitEffects where
  finalValues : FormValues
  logged : Bool
  refreshed : Bool
  navigated : Bool
  fieldErrorShown : Bool
deriving DecidableEq

/-- The `try`/`catch` of `onSubmit`: a non-ok response throws
`Error("Submission failed")`; any thrown error is caught and logged; only
the success path runs `form.reset()` and `router.refresh()`. -/
def onSubmit (values : FormValues) (outcome : NetOutcome) : SubmitEffects :=
  match outcome with
  | .throws =>
      { finalValues := values, logged := true, refreshed := false,
        navigated := false, fieldErrorShown := false }
  | .responds ok =>
      if ok then
        { finalValues := defaultValues, logged := false, refreshed := true,
          navigated := false, fieldErrorShown := false }
      else
        { finalValues := values, logged := true, refreshed := false,
          navigated := false, fieldErrorShown := false }

/-- `handleAddSkill`: trim the staging string; when the result is truthy
(non-empty) and not already in the committed list, append it and clear the
staging string; otherwise change nothing.  Returns (staging, list). -/
def handleAddSkill (skillInput : String) (skills : List String) :
    String × List String :=
  let skill := jsTrim skillInput
  if skill ≠ "" ∧ skill ∉ skills then ("", skills ++ [skill])
  else (skillInput, skills)

/-- `handleRemoveSkill`: keep exactly the committed skills different from
the removed one. -/
def handleRemoveSkill (skill : String) (skills : List String) : List String :=
  skills.filter (fun s => s ≠ skill)

/-- The component's whole mutable state: the form values plus the staging
string of the skill editor. -/
structure FormState where
  values : FormValues
  skillInput : String

/-- State at mount: `defaultValues` and an empty staging string. -/
def initialState : FormState := { values := defaultValues, skillInput := "" }

/-- The `SelectItem` values offered for `type`. -/
def typeOptions : List String := ["technical", "behavioral", "mixed"]

/-- The `SelectItem` values offered for `level`. -/
def levelOptions : List String := ["entry", "mid", "senior", "staff", "manager"]

/-- The `SelectItem` values offered for `amount`. -/
def amountOptions : List Nat := [3, 5, 10, 15, 20]

/-- One user interaction exposed by the rendered UI. -/
inductive Step : FormState → FormState → Prop where
  | setSkillInput (st : FormState) (s : String) :
      Step st { st with skillInput := s }
  | addSkill (st : FormState) :
      Step st
        { values := { st.values with
            specialtySkills := (handleAddSkill st.skillInput st.values.specialtySkills).2 },
          skillInput := (handleAddSkill st.skillInput st.values.specialtySkills).1 }
  | removeSkill (st : FormState) (k : String) :
      Step st
        { st with values := { st.values with
            specialtySkills := handleRemoveSkill k st.values.specialtySkills } }
  | setType (st : FormState) (v : String) (h : v ∈ typeOptions) :
      Step st { st with values := { st.values with type := v } }
  | setRole (st : FormState) (v : String) :
      Step st { st with values := { st.values with role := v } }
  | setLevel (st : FormState) (v : String) (h : v ∈ levelOptions) :
      Step st { st with values := { st.values with level := v } }
  | setAmount (st : FormState) (n : Nat) (h : n ∈ amountOptions) :
      Step st { st with values := { st.values with amount := n } }
  | submit (st : FormState) (outcome : NetOutcome) :
      Step st { st with values := (onSubmit st.values outcome).finalValues }

/-- States reachable from mount through the exposed interactions. -/
inductive Reachable : FormState → Prop where
  | init : Reachable initialState
  | step {a b : FormState} : Reachable a → Step a b → Reachable b

end CreateForm

namespace CreateForm

/-- C1: for every draft that passes validation, the submit handler issues a
request whose body is the draft's fields in order with `specialtySkills`
replaced by the comma-and-space-joined string of its elements plus a
`userid` field holding the current user's id; on the concrete draft
(technical, Frontend Engineer, mid, [React, CSS], 5) with user `u_123` the
serialized body is exactly the expected JSON text. -/
theorem submit_body_builds (v : FormValues) (uid : String)
    (h : (validateIssues v).isEmpty = true) :
    submitRequest v (some uid) =
      some [("type", .str v.type), ("role", .str v.role),
            ("level", .str v.level),
            ("specialtySkills", .str (joinSkills v.specialtySkills)),
            ("amount", .num v.amount), ("userid", .str uid)] ∧
    stringifyObj (buildBody
        ⟨"technical", "Frontend Engineer", "mid", ["React", "CSS"], 5⟩
        (some "u_123")) =
      "\x7b\"type\":\"technical\",\"role\":\"Frontend Engineer\",\"level\":\"mid\",\"specialtySkills\":\"React, CSS\",\"amount\":5,\"userid\":\"u_123\"\x7d" := by
  refine ⟨?_, rfl⟩
  show (if (validateIssues v).isEmpty then some (buildBody v (some uid))
        else none) = _
  rw [if_pos h]
  rfl

/-- Witness for C1 at the concrete scenario-A draft. -/
theorem submit_body_builds_witness :
    submitRequest
        ⟨"technical", "Frontend Engineer", "mid", ["React", "CSS"], 5⟩
        (some "u_123") =
      some [("type", .str "technical"), ("role", .str "Frontend Engineer"),
            ("level", .str "mid"), ("specialtySkills", .str "React, CSS"),
            ("amount", .num 5), ("userid", .str "u_123")] ∧
    stringifyObj (buildBody
        ⟨"technical", "Frontend Engineer", "mid", ["React", "CSS"], 5⟩
        (some "u_123")) =
      "\x7b\"type\":\"technical\",\"role\":\"Frontend Engineer\",\"level\":\"mid\",\"specialtySkills\":\"React, CSS\",\"amount\":5,\"userid\":\"u_123\"\x7d" :=
  submit_body_builds
    ⟨"technical", "Frontend Engineer", "mid", ["React", "CSS"], 5⟩
    "u_123" (by decide)

/-- C2 counterexample: a draft whose `type` is the blank string consisting
of one space passes `formSchema` (zod only checks length ≥ 1), so
submission proceeds and a network call is issued. -/
theorem blank_type_passes_validation :
    validateIssues ⟨" ", "Frontend Engineer", "mid", ["React"], 5⟩ = [] ∧
    (submitRequest ⟨" ", "Frontend Engineer", "mid", ["React"], 5⟩
      (some "u_123")).isSome = true :=
  ⟨rfl, rfl⟩

/-- C2 (amended): for every draft in which `type`, `role` or `level` is the
empty string, validation reports the required-field issue for that field
and submission is blocked with no network call (whitespace-only values of
positive length are not rejected). -/
theorem empty_field_blocks_submission (v : FormValues) (uid : Option String)
    (h : v.type = "" ∨ v.role = "" ∨ v.level = "") :
    (v.type = "" →
      (⟨"type", "This field is required."⟩ : Issue) ∈ validateIssues v) ∧
    (v.role = "" →
      (⟨"role", "This field is required."⟩ : Issue) ∈ validateIssues v) ∧
    (v.level = "" →
      (⟨"level", "This field is required."⟩ : Issue) ∈ validateIssues v) ∧
    submitRequest v uid = none := by
  have hmem : ∀ p val, val = "" →
      (⟨p, "This field is required."⟩ : Issue) ∈ requiredCheck p val := by
    intro p val hval
    simp [requiredCheck, hval]
  refine ⟨?_, ?_, ?_, ?_⟩
  · intro he
    simp only [validateIssues, List.mem_append]
    exact Or.inl (Or.inl (Or.inl (Or.inl (hmem _ _ he))))
  · intro he
    simp only [validateIssues, List.mem_append]
    exact Or.inl (Or.inl (Or.inl (Or.inr (hmem _ _ he))))
  · intro he
    simp only [validateIssues, List.mem_append]
    exact Or.inl (Or.inl (Or.inr (hmem _ _ he)))
  · have hne : validateIssues v ≠ [] := by
      rcases h with he | he | he
      · exact List.ne_nil_of_mem (by
          simp only [validateIssues, List.mem_append]
          exact Or.inl (Or.inl (Or.inl (Or.inl (hmem _ _ he)))))
      · exact List.ne_nil_of_mem (by
          simp only [validateIssues, List.mem_append]
          exact Or.inl (Or.inl (Or.inl (Or.inr (hmem _ _ he)))))
      · exact List.ne_nil_of_mem (by
          simp only [validateIssues, List.mem_append]
          exact Or.inl (Or.inl (Or.inr (hmem _ _ he))))
    simp [submitRequest, hne]

/-- Witness for the amended C2 at a draft with an empty `type`. -/
theorem empty_field_blocks_submission_witness :
    (⟨"type", "This field is required."⟩ : Issue) ∈
      validateIssues ⟨"", "Frontend Engineer", "mid", ["React"], 5⟩ ∧
    submitRequest ⟨"", "Frontend Engineer", "mid", ["React"], 5⟩
      (some "u_123") = none :=
  ⟨(empty_field_blocks_submission ⟨"", "Frontend Engineer", "mid", ["React"], 5⟩
      (some "u_123") (Or.inl rfl)).1 rfl,
   (empty_field_blocks_submission ⟨"", "Frontend Engineer", "mid", ["React"], 5⟩
      (some "u_123") (Or.inl rfl)).2.2.2⟩

/-- C3: for every draft whose skill list is empty, validation reports the
minimum-count issue for `specialtySkills` and submission is blocked: the
request body is never constructed. -/
theorem empty_skills_blocks_submission (v : FormValues) (uid : Option String)
    (h : v.specialtySkills = []) :
    (⟨"specialtySkills", "Please add at least one skill."⟩ : Issue) ∈
      validateIssues v ∧
    submitRequest v uid = none := by
  have hmem : (⟨"specialtySkills", "Please add at least one skill."⟩ : Issue) ∈
      validateIssues v := by
    simp only [validateIssues, List.mem_append]
    exact Or.inl (Or.inr (by simp [skillsIssues, h]))
  refine ⟨hmem, ?_⟩
  simp [submitRequest, List.ne_nil_of_mem hmem]

/-- Witness for C3 at the default draft, whose skill list is empty. -/
theorem empty_skills_blocks_submission_witness :
    (⟨"specialtySkills", "Please add at least one skill."⟩ : Issue) ∈
      validateIssues defaultValues ∧
    submitRequest defaultValues (some "u_123") = none :=
  empty_skills_blocks_submission defaultValues (some "u_123") rfl

/-- C4: for every submitted draft, when the request throws or the response
status is non-success, the error is caught, only the diagnostic channel is
written, the draft is left exactly as submitted, and no field-level error,
refresh or navigation happens. -/
theorem failed_submit_preserves_draft (v : FormValues) (o : NetOutcome)
    (h : o = NetOutcome.throws ∨ o = NetOutcome.responds false) :
    onSubmit v o =
      { finalValues := v, logged := true, refreshed := false,
        navigated := false, fieldErrorShown := false } := by
  rcases h with h | h <;> subst h <;> rfl

/-- Witness for C4 at the default draft and a non-success response. -/
theorem failed_submit_preserves_draft_witness :
    onSubmit defaultValues (NetOutcome.responds false) =
      { finalValues := defaultValues, logged := true, refreshed := false,
        navigated := false, fieldErrorShown := false } :=
  failed_submit_preserves_draft defaultValues (NetOutcome.responds false)
    (Or.inr rfl)

/-- C5: for every submitted draft, a success response resets the draft to
the defaults (empty type/role/level, empty skill list, amount 5) and
signals the host view to refresh, with no explicit navigation. -/
theorem successful_submit_resets_draft (v : FormValues) :
    onSubmit v (NetOutcome.responds true) =
      { finalValues := { type := "", role := "", level := "",
                         specialtySkills := [], amount := 5 },
        logged := false, refreshed := true, navigated := false,
        fieldErrorShown := false } := rfl

end CreateForm

namespace CreateForm

/-- Helper: dropping leading whitespace from an all-whitespace character
list leaves nothing, so trimming it leaves nothing. -/
theorem trimChars_eq_nil {l : List Char} (h : ∀ c ∈ l, c.isWhitespace) :
    trimChars l = [] := by
  unfold trimChars
  rw [List.dropWhile_eq_nil_iff.mpr h]
  simp

/-- C6: `handleAddSkill` trims the staging string; when the trimmed text is
non-empty and not yet committed it is appended at the end and the staging
string is cleared; otherwise nothing changes; hence applying it twice with
the same staging text grows the list at most once, at the position of the
first insertion. -/
theorem addSkill_trims_dedups_appends (s : String) (l : List String) :
    (jsTrim s ≠ "" → jsTrim s ∉ l →
      handleAddSkill s l = ("", l ++ [jsTrim s])) ∧
    (jsTrim s = "" ∨ jsTrim s ∈ l → handleAddSkill s l = (s, l)) ∧
    (handleAddSkill s (handleAddSkill s l).2).2 = (handleAddSkill s l).2 := by
  refine ⟨?_, ?_, ?_⟩
  · intro h1 h2
    simp [handleAddSkill, h1, h2]
  · intro h
    have hneg : ¬(jsTrim s ≠ "" ∧ jsTrim s ∉ l) := by
      rcases h with h | h
      · exact fun hc => hc.1 h
      · exact fun hc => hc.2 h
    simp [handleAddSkill, hneg]
  · by_cases hc : jsTrim s ≠ "" ∧ jsTrim s ∉ l
    · have h1 : handleAddSkill s l = ("", l ++ [jsTrim s]) := by
        simp [handleAddSkill, hc.1, hc.2]
      rw [h1]
      simp [handleAddSkill]
    · simp [handleAddSkill, hc]

/-- Witness for C6: adding a padded skill to the empty list trims, appends
and clears the staging text, and a second add with the same text keeps the
one-element list. -/
theorem addSkill_trims_dedups_appends_witness :
    handleAddSkill " React " [] = ("", ["React"]) ∧
    handleAddSkill " React " ["React"] = (" React ", ["React"]) :=
  ⟨(addSkill_trims_dedups_appends " React " []).1 (by decide) (by decide),
   (addSkill_trims_dedups_appends " React " ["React"]).2.1
     (Or.inr (by decide))⟩

/-- C7: for every staging string made only of whitespace (the empty string
included), `handleAddSkill` leaves both the committed list and the staging
text unchanged: whitespace is never committed. -/
theorem addSkill_whitespace_noop (s : String) (l : List String)
    (h : ∀ c ∈ s.data, c.isWhitespace) :
    handleAddSkill s l = (s, l) := by
  have ht : jsTrim s = "" := by
    show String.mk (trimChars s.data) = ""
    rw [trimChars_eq_nil h]
  simp [handleAddSkill, ht]

/-- Witness for C7 on a two-space staging string. -/
theorem addSkill_whitespace_noop_witness :
    handleAddSkill "  " ["React"] = ("  ", ["React"]) :=
  addSkill_whitespace_noop "  " ["React"] (by decide)

/-- C8: `handleRemoveSkill` removes every occurrence exactly equal to the
given skill, keeps every other element (as a sublist, preserving order),
and is the identity when the skill is absent; it is total, so it never
fails. -/
theorem removeSkill_removes_all (k : String) (l : List String) :
    k ∉ handleRemoveSkill k l ∧
    (∀ x ∈ l, x ≠ k → x ∈ handleRemoveSkill k l) ∧
    List.Sublist (handleRemoveSkill k l) l ∧
    (k ∉ l → handleRemoveSkill k l = l) := by
  refine ⟨?_, ?_, ?_, ?_⟩
  · simp [handleRemoveSkill, List.mem_filter]
  · intro x hx hne
    simp [handleRemoveSkill, List.mem_filter, hx, hne]
  · exact List.filter_sublist l
  · intro hk
    apply List.filter_eq_self.mpr
    intro a ha
    simp only [decide_eq_true_eq]
    rintro rfl
    exact hk ha

/-- Witness for C8: removing an absent skill changes nothing. -/
theorem removeSkill_removes_all_witness :
    handleRemoveSkill "Go" ["React", "CSS"] = ["React", "CSS"] :=
  (removeSkill_removes_all "Go" ["React", "CSS"]).2.2.2 (by decide)

/-- C9: every state reachable from the mounted default state through the
exposed interactions keeps the skill list free of empty strings and of
duplicates, and keeps `amount` in {3, 5, 10, 15, 20}. -/
theorem reachable_invariant (st : FormState) (h : Reachable st) :
    "" ∉ st.values.specialtySkills ∧ st.values.specialtySkills.Nodup ∧
    st.values.amount ∈ amountOptions := by
  induction h with
  | init => exact ⟨by decide, by decide, by decide⟩
  | step hr hs ih =>
    rename_i a b
    obtain ⟨h1, h2, h3⟩ := ih
    cases hs with
    | setSkillInput s => exact ⟨h1, h2, h3⟩
    | addSkill =>
      have hmain :
          "" ∉ (handleAddSkill a.skillInput a.values.specialtySkills).2 ∧
          (handleAddSkill a.skillInput a.values.specialtySkills).2.Nodup := by
        by_cases hc : jsTrim a.skillInput ≠ "" ∧
            jsTrim a.skillInput ∉ a.values.specialtySkills
        · have he : handleAddSkill a.skillInput a.values.specialtySkills =
              ("", a.values.specialtySkills ++ [jsTrim a.skillInput]) := by
            simp [handleAddSkill, hc.1, hc.2]
          rw [he]
          constructor
          · simp only [List.mem_append, List.mem_singleton]
            rintro (hm | hm)
            · exact h1 hm
            · exact hc.1 hm.symm
          · simp [List.nodup_append, h2, hc.2]
        · have he : handleAddSkill a.skillInput a.values.specialtySkills =
              (a.skillInput, a.values.specialtySkills) := by
            simp [handleAddSkill, hc]
          rw [he]
          exact ⟨h1, h2⟩
      exact ⟨hmain.1, hmain.2, h3⟩
    | removeSkill k =>
      refine ⟨?_, ?_, h3⟩
      · intro hmem
        exact h1 ((List.filter_sublist _).subset hmem)
      · exact h2.filter _
    | setType v hv => exact ⟨h1, h2, h3⟩
    | setRole v => exact ⟨h1, h2, h3⟩
    | setLevel v hv => exact ⟨h1, h2, h3⟩
    | setAmount n hn => exact ⟨h1, h2, hn⟩
    | submit outcome =>
      cases outcome with
      | throws => exact ⟨h1, h2, h3⟩
      | responds ok =>
        cases ok with
        | true => refine ⟨?_, ?_, ?_⟩ <;>
            simp [onSubmit, defaultValues, amountOptions]
        | false => exact ⟨h1, h2, h3⟩

/-- Witness for C9 at the initial state. -/
theorem reachable_invariant_witness :
    "" ∉ initialState.values.specialtySkills ∧
    initialState.values.specialtySkills.Nodup ∧
    initialState.values.amount ∈ amountOptions :=
  reachable_invariant initialState Reachable.init

/-- C10: when the user identifier is absent, the serialized body has
exactly the five draft keys and no `userid` key at all; with a user
present the serialization is the same five pairs plus a final `userid`
pair, so every other field is unaffected by the user's presence; on a
concrete draft the user-less JSON text carries no `userid`. -/
theorem absent_user_omits_userid (v : FormValues) (u : String) :
    (serializedPairs (buildBody v none)).map Prod.fst =
      ["type", "role", "level", "specialtySkills", "amount"] ∧
    serializedPairs (buildBody v (some u)) =
      serializedPairs (buildBody v none) ++
        [("userid", "\"" ++ escapeString u ++ "\"")] ∧
    stringifyObj (buildBody
        ⟨"technical", "Frontend Engineer", "mid", ["React", "CSS"], 5⟩
        none) =
      "\x7b\"type\":\"technical\",\"role\":\"Frontend Engineer\",\"level\":\"mid\",\"specialtySkills\":\"React, CSS\",\"amount\":5\x7d" :=
  ⟨rfl, rfl, rfl⟩

end CreateForm
